import Mathlib

/-!
Verification of the Johnny Von-Neumann machine simulator
(flxcraft/johnny): a shallow embedding of the machine model, its
control unit, the RAM editor, the recorder and the project store,
with theorems checking the specified properties against the code.

The repository ships the same logic in parallel build channels
(`static`, `beta`, `preview`).  Each Lean definition names the
source file and channel it embeds.
-/

/-! ## Constants (johnny-project.js / main.js) -/

/-- RAM_SIZE = 1000. -/
def RAM_SIZE : ℕ := 1000

/-- MICROCODE_SIZE = 200. -/
def MICROCODE_SIZE : ℕ := 200

/-- MAX_RAM_VALUE = MICROCODE_SIZE * 100 - 1 = 19999. -/
def MAX_RAM_VALUE : ℕ := MICROCODE_SIZE * 100 - 1

/-- getDataHigh (formatter.js): `Math.trunc(data / RAM_SIZE)`, the opcode
field of a word (arguments are natural numbers in the machine model, where
truncating division coincides with Nat division). -/
def getDataHigh (data : ℕ) : ℕ := data / RAM_SIZE

/-- getDataLow (formatter.js): `data % RAM_SIZE`, the operand field. -/
def getDataLow (data : ℕ) : ℕ := data % RAM_SIZE

/-- The default microcode program of `#initMicroCode`
(johnny-project.js): the literal 101-entry array, padded with zeros up
to MICROCODE_SIZE. -/
def defaultMicroCode : List ℕ :=
  let newMicroCode : List ℕ :=
    [8, 2, 3, 5, 0, 0, 0, 0, 0, 0, 4, 2, 18, 9, 7, 0, 0, 0, 0, 0,
     4, 2, 13, 9, 7, 0, 0, 0, 0, 0, 4, 2, 14, 9, 7, 0, 0, 0, 0, 0,
     4, 15, 1, 9, 7, 0, 0, 0, 0, 0, 11, 7, 0, 0, 0, 0, 0, 0, 0, 0,
     4, 2, 18, 10, 9, 7, 0, 0, 0, 0, 4, 2, 18, 16, 15, 1, 9, 7, 0, 0,
     4, 2, 18, 17, 15, 1, 9, 7, 0, 0, 4, 12, 15, 1, 9, 7, 0, 0, 0, 0,
     19, 0, 0, 0, 0, 0, 0, 0, 0, 0, 0]
  newMicroCode ++ List.replicate (MICROCODE_SIZE - newMicroCode.length) 0

/-! ## Machine state

The mutable globals of main.js (registers, flags, RAM and microcode
arrays) gathered in one record.  Presentation-only globals
(`lastAccessedRamAddress`, table highlighting) are omitted;
`selectedRamAddress` is kept because `insToMcStep` writes it.
Recording state is modelled separately with the Recorder
(record.js); the `isRecording && isManual` branch of
`executeMicroInstruction` only ever writes microcode memory through
`recordMicroStep`, never the microcode counter. -/

structure MachineState where
  addressBus : ℕ
  dataBus : ℕ
  accumulator : ℕ
  programCounter : ℕ
  instructionRegister : ℕ
  microCodeCounter : ℕ
  selectedRamAddress : ℕ
  ram : List ℕ
  microCode : List ℕ
  isHlt : Bool
  isMacroRunning : Bool
  deriving Repr, DecidableEq

/-- clamp (writing.js): `Math.min(Math.max(value, min), max)` with min = 0;
on natural numbers this is `min value max`. -/
def clampNat (value max : ℕ) : ℕ := min value max

/-- writeToAddressBus (writing.js): normalizeInt into [0, RAM_SIZE-1]. -/
def writeToAddressBus (s : MachineState) (value : ℕ) : MachineState :=
  { s with addressBus := clampNat value (RAM_SIZE - 1) }

/-- writeToDataBus (writing.js): normalizeInt into [0, MAX_RAM_VALUE]. -/
def writeToDataBus (s : MachineState) (value : ℕ) : MachineState :=
  { s with dataBus := clampNat value MAX_RAM_VALUE }

/-- writeToAccumulator (writing.js): normalizeInt into [0, MAX_RAM_VALUE]. -/
def writeToAccumulator (s : MachineState) (value : ℕ) : MachineState :=
  { s with accumulator := clampNat value MAX_RAM_VALUE }

/-- writeToProgramCounter (writing.js): normalizeInt into [0, RAM_SIZE-1]. -/
def writeToProgramCounter (s : MachineState) (value : ℕ) : MachineState :=
  { s with programCounter := clampNat value (RAM_SIZE - 1) }

/-- writeToInstructionRegister (writing.js): normalizeInt into [0, MAX_RAM_VALUE]. -/
def writeToInstructionRegister (s : MachineState) (value : ℕ) : MachineState :=
  { s with instructionRegister := clampNat value MAX_RAM_VALUE }

/-- writeToMicroCodeCounter (writing.js): normalizeInt into [0, MICROCODE_SIZE-1]. -/
def writeToMicroCodeCounter (s : MachineState) (value : ℕ) : MachineState :=
  { s with microCodeCounter := clampNat value (MICROCODE_SIZE - 1) }

/-- writeToRam (writing.js): normalizeInt clamps address into
[0, RAM_SIZE-1] and value into [0, MAX_RAM_VALUE], then stores the value. -/
def writeToRam (s : MachineState) (address value : ℕ) : MachineState :=
  { s with ram := s.ram.set (clampNat address (RAM_SIZE - 1)) (clampNat value MAX_RAM_VALUE) }

/-! ## The micro-instruction implementations (microstep.js, preview channel) -/

/-- dbToRamStep: `Memory[AddressBus] := DataBus` (id 1). -/
def dbToRamStep (s : MachineState) : MachineState := writeToRam s s.addressBus s.dataBus

/-- ramToDbStep: `DataBus := Memory[AddressBus]` (id 2). -/
def ramToDbStep (s : MachineState) : MachineState :=
  writeToDataBus s (s.ram.getD s.addressBus 0)

/-- dbToInsStep: `InstructionRegister := DataBus` (id 3). -/
def dbToInsStep (s : MachineState) : MachineState :=
  writeToInstructionRegister s s.dataBus

/-- insToAbStep: `AddressBus := operand(InstructionRegister)` (id 4). -/
def insToAbStep (s : MachineState) : MachineState :=
  writeToAddressBus s (getDataLow s.instructionRegister)

/-- insToMcStep: `MicroCodeCounter := opcode(InstructionRegister) * 10`,
then `selectedRamAddress := programCounter` (id 5). -/
def insToMcStep (s : MachineState) : MachineState :=
  let s1 := writeToMicroCodeCounter s (getDataHigh s.instructionRegister * 10)
  { s1 with selectedRamAddress := s1.programCounter }

/-- nullMcStep: `MicroCodeCounter := 0` (id 7). -/
def nullMcStep (s : MachineState) : MachineState := writeToMicroCodeCounter s 0

/-- pcToAbStep: `AddressBus := ProgramCounter` (id 8). -/
def pcToAbStep (s : MachineState) : MachineState := writeToAddressBus s s.programCounter

/-- incPcStep: `ProgramCounter := ProgramCounter + 1` (id 9). -/
def incPcStep (s : MachineState) : MachineState :=
  writeToProgramCounter s (s.programCounter + 1)

/-- incPcIfAccZeroStep: if `Accumulator == 0` then incPcStep (id 10). -/
def incPcIfAccZeroStep (s : MachineState) : MachineState :=
  if s.accumulator = 0 then incPcStep s else s

/-- insToPcStep: `ProgramCounter := operand(InstructionRegister)` (id 11). -/
def insToPcStep (s : MachineState) : MachineState :=
  writeToProgramCounter s (getDataLow s.instructionRegister)

/-- nullAccStep: `Accumulator := 0` (id 12). -/
def nullAccStep (s : MachineState) : MachineState := writeToAccumulator s 0

/-- addAccStep: `Accumulator := Accumulator + DataBus`, clamped (id 13). -/
def addAccStep (s : MachineState) : MachineState :=
  writeToAccumulator s (s.accumulator + s.dataBus)

/-- subAccStep: `Accumulator := Accumulator - DataBus`; JS may produce a
negative number which normalizeInt clamps to 0, matching truncated Nat
subtraction (id 14). -/
def subAccStep (s : MachineState) : MachineState :=
  writeToAccumulator s (s.accumulator - s.dataBus)

/-- accToDbStep: `DataBus := Accumulator` (id 15). -/
def accToDbStep (s : MachineState) : MachineState := writeToDataBus s s.accumulator

/-- incAccStep: `Accumulator := Accumulator + 1`, clamped (id 16). -/
def incAccStep (s : MachineState) : MachineState :=
  writeToAccumulator s (s.accumulator + 1)

/-- decAccStep: `Accumulator := Accumulator - 1`, clamped at 0 (id 17). -/
def decAccStep (s : MachineState) : MachineState :=
  writeToAccumulator s (s.accumulator - 1)

/-- dbToAccStep: `Accumulator := DataBus` (id 18). -/
def dbToAccStep (s : MachineState) : MachineState := writeToAccumulator s s.dataBus

/-- stopStep: `isHlt := true` (id 19). -/
def stopStep (s : MachineState) : MachineState := { s with isHlt := true }

/-- The MICRO_INSTRUCTIONS dispatch table (microstep.js): id maps to its
exec function and its auto-increment flag; unknown ids (including the
reserved 6) are absent. -/
def MICRO_INSTRUCTIONS (id : ℕ) : Option ((MachineState → MachineState) × Bool) :=
  match id with
  | 1 => some (dbToRamStep, true)
  | 2 => some (ramToDbStep, true)
  | 3 => some (dbToInsStep, true)
  | 4 => some (insToAbStep, true)
  | 5 => some (insToMcStep, false)
  | 7 => some (nullMcStep, false)
  | 8 => some (pcToAbStep, true)
  | 9 => some (incPcStep, true)
  | 10 => some (incPcIfAccZeroStep, true)
  | 11 => some (insToPcStep, true)
  | 12 => some (nullAccStep, true)
  | 13 => some (addAccStep, true)
  | 14 => some (subAccStep, true)
  | 15 => some (accToDbStep, true)
  | 16 => some (incAccStep, true)
  | 17 => some (decAccStep, true)
  | 18 => some (dbToAccStep, true)
  | 19 => some (stopStep, false)
  | 0 => some (fun s => s, false)
  | _ => none

/-- The user-visible execution faults raised by the control unit
(microstep.js signals them through console.error + alert). -/
inductive Fault where
  | fetchFault
  | microcodeZero
  | invalidMicroOp
  deriving Repr, DecidableEq

/-- executeMicroInstruction (microstep.js, preview channel): look the id up
in MICRO_INSTRUCTIONS; an unknown id halts the machine and stops any run
(InvalidMicroOp); otherwise run the exec function and, unless the step is
manual, apply the auto-increment of the microcode counter when the entry
requests it.  The `isRecording && isManual` recording append is modelled
with the Recorder. -/
def executeMicroInstruction (s : MachineState) (id : ℕ) (isManual : Bool) :
    MachineState × Option Fault :=
  match MICRO_INSTRUCTIONS id with
  | none => ({ s with isHlt := true, isMacroRunning := false }, some Fault.invalidMicroOp)
  | some (exec, increment) =>
      let s1 := exec s
      let s2 := if increment && !isManual then
          writeToMicroCodeCounter s1 (s1.microCodeCounter + 1)
        else s1
      (s2, none)

/-- microStep (preview/static/script/microstep.js): no-op when halted;
reads the id at the microcode counter; id 5 with opcode 0 in the
instruction register halts with the FETCH fault; an active id 0 halts
with the microcode-zero fault; otherwise dispatches. -/
def microStepF (s : MachineState) : MachineState × Option Fault :=
  if s.isHlt then (s, none)
  else
    let id := s.microCode.getD s.microCodeCounter 0
    if id = 5 ∧ getDataHigh s.instructionRegister = 0 then
      ({ s with isHlt := true, isMacroRunning := false }, some Fault.fetchFault)
    else if id = 0 then
      ({ s with isHlt := true, isMacroRunning := false }, some Fault.microcodeZero)
    else
      executeMicroInstruction s id false

/-- manualMicroStep (microstep.js): executeMicroInstruction(id, true, true). -/
def manualMicroStep (s : MachineState) (id : ℕ) : MachineState :=
  (executeMicroInstruction s id true).1

/-- singleMacroStep (macrostep.js): `do { microStep(false) } while
(microCodeCounter != 0 && !isHlt)`, rendered with explicit fuel; `none`
means the fuel ran out before the loop exited.  The returned fault is
the one raised by the last micro step. -/
def singleMacroStepFuel : ℕ → MachineState → Option (MachineState × Option Fault)
  | 0, _ => none
  | n + 1, s =>
      let r := microStepF s
      if r.1.microCodeCounter ≠ 0 ∧ r.1.isHlt = false then singleMacroStepFuel n r.1
      else some r

/-! ## RAM editor (ram-table.js)

The editor works on the RAM array with an ambient selected address.
Words are modelled as integers: the static channel (ram-table.js with
global `ram`) assigns `ram[address] = opcode*1000 + (operand + delta)`
without validation, so a rewritten word can leave [0, MAX_RAM_VALUE].
The shift loops copy strictly from the side that has not been
overwritten yet (high-to-low on insert, low-to-high on delete), so each
is rendered as its pointwise result over the indices of the array. -/

/-- The `while (lastUsedAddress >= 0 && ram[lastUsedAddress] === 0)
lastUsedAddress--` scan of getLastUsedRamAddress, counting down from `n - 1`. -/
def lastUsedFrom (ram : List ℤ) : ℕ → ℤ
  | 0 => -1
  | n + 1 => if ram.getD n 0 = 0 then lastUsedFrom ram n else (n : ℤ)

/-- getLastUsedRamAddress (files.js / johnny-project.js): the highest
address holding a nonzero word, or -1 when RAM is all zero. -/
def getLastUsedRamAddress (ram : List ℤ) : ℤ := lastUsedFrom ram ram.length

/-- The opcode field of an editor word (`getDataHigh` on an in-range
word; JS `Math.trunc` on nonnegative input is Int division). -/
def wordHigh (data : ℤ) : ℤ := data / 1000

/-- The operand field of an editor word. -/
def wordLow (data : ℤ) : ℤ := data % 1000

/-- fixOperandAfterRamShift (ram-table.js, static channel): for every
address whose opcode is neither 0 nor 10 and whose operand is >=
startAddress, rewrite the word as `opcode*1000 + (operand + delta)`,
directly into the array. -/
def fixOperandAfterRamShift (ram : List ℤ) (startAddress : ℕ) (delta : ℤ) : List ℤ :=
  ram.map fun data =>
    let opcode := wordHigh data
    let operand := wordLow data
    if opcode = 0 ∨ opcode = 10 then data
    else if (startAddress : ℤ) ≤ operand then opcode * 1000 + (operand + delta)
    else data

/-- The insert shift loop of insertRamRowAbove: `for (i = last+1;
i > selected; i--) ram[i] = ram[i-1]`; processed high to low, every
write lands above every later read, so the loop equals this pointwise
copy. -/
def insertShift (ram : List ℤ) (selected last : ℕ) : List ℤ :=
  (List.range ram.length).map fun i =>
    if selected + 1 ≤ i ∧ i ≤ last + 1 then ram.getD (i - 1) 0 else ram.getD i 0

/-- insertRamRowAbove (ram-table.js): no-op on empty RAM; refuses when
the last used address is already the last slot; otherwise shifts words
one slot down from the last used address to the selected address, clears
the selected address, and runs the operand fix-up when enabled. -/
def insertRamRowAbove (ram : List ℤ) (selected : ℕ) (fixEnabled : Bool) : List ℤ :=
  let last := getLastUsedRamAddress ram
  if last = -1 then ram
  else if (ram.length : ℤ) - 1 ≤ last then ram
  else
    let shifted := (insertShift ram selected last.toNat).set selected 0
    if fixEnabled then fixOperandAfterRamShift shifted selected 1 else shifted

/-- The delete shift loop of deleteRamRow: `for (i = selected;
i < last; i++) ram[i] = ram[i+1]`; processed low to high, every write
lands below every later read, so the loop equals this pointwise copy. -/
def deleteShift (ram : List ℤ) (selected last : ℕ) : List ℤ :=
  (List.range ram.length).map fun i =>
    if selected ≤ i ∧ i < last then ram.getD (i + 1) 0 else ram.getD i 0

/-- deleteRamRow (ram-table.js): no-op on empty RAM; otherwise shifts
words one slot up from the selected address to the last used address,
clears the last used address, and runs the operand fix-up with delta -1
when enabled. -/
def deleteRamRow (ram : List ℤ) (selected : ℕ) (fixEnabled : Bool) : List ℤ :=
  let last := getLastUsedRamAddress ram
  if last = -1 then ram
  else
    let shifted := (deleteShift ram selected last.toNat).set last.toNat 0
    if fixEnabled then fixOperandAfterRamShift shifted selected (-1) else shifted

/-! ## Memory accessors of the project class (johnny-project.js) -/

/-- The errors thrown by getRam/setRam. -/
inductive RamError where
  | addressOutOfRange
  | valueOutOfRange
  deriving Repr, DecidableEq

/-- getRam (johnny-project.js): throws when the address is outside
[0, RAM_SIZE), otherwise returns the word. -/
def getRam (ram : List ℤ) (address : ℤ) : Except RamError ℤ :=
  if address < 0 ∨ (RAM_SIZE : ℤ) ≤ address then Except.error RamError.addressOutOfRange
  else Except.ok (ram.getD address.toNat 0)

/-- setRam (johnny-project.js): throws AddressOutOfRange when the address
is outside [0, RAM_SIZE), ValueOutOfRange when the value is outside
[0, MAX_RAM_VALUE]; only then stores the value (so a failing write leaves
RAM untouched). -/
def setRam (ram : List ℤ) (address value : ℤ) : Except RamError (List ℤ) :=
  if address < 0 ∨ (RAM_SIZE : ℤ) ≤ address then Except.error RamError.addressOutOfRange
  else if value < 0 ∨ (MAX_RAM_VALUE : ℤ) < value then Except.error RamError.valueOutOfRange
  else Except.ok (ram.set address.toNat value)

/-! ## Recorder (record.js, beta channel, with the project class setters) -/

/-- The default instruction name table of `#initInstructionNames`
(johnny-project.js). -/
def defaultInstructionNames : List (ℕ × String) :=
  [(0, "FETCH"), (1, "TAKE"), (2, "ADD"), (3, "SUB"), (4, "SAVE"),
   (5, "JMP"), (6, "TST"), (7, "INC"), (8, "DEC"), (9, "NULL"), (10, "HLT")]

/-- JS `String.prototype.trim`: drop whitespace from both ends of the
character list. -/
def trimChars (l : List Char) : List Char :=
  ((l.dropWhile Char.isWhitespace).reverse.dropWhile Char.isWhitespace).reverse

/-- JS `name.trim()` on a Lean string (kept executable by the kernel,
unlike String.trim). -/
def jsTrim (s : String) : String := String.mk (trimChars s.data)

/-- Assignment `instructionNames[opCode] = name` on the name table,
modelled as an association list update. -/
def setAssoc (names : List (ℕ × String)) (opCode : ℕ) (name : String) :
    List (ℕ × String) :=
  if (names.lookup opCode).isSome then
    names.map fun p => if p.1 = opCode then (opCode, name) else p
  else names ++ [(opCode, name)]

/-- setInstructionName (johnny-project.js): rejects an opcode outside
[0, MICROCODE_SIZE/10) and a name that trims to empty or exceeds 5
characters; otherwise records the name.  Returns the updated table and
a success flag. -/
def setInstructionName (names : List (ℕ × String)) (opCode : ℕ) (name : String) :
    List (ℕ × String) × Bool :=
  if MICROCODE_SIZE / 10 ≤ opCode then (names, false)
  else if jsTrim name = "" ∨ 5 < name.length then (names, false)
  else (setAssoc names opCode name, true)

/-- setMicroCode (johnny-project.js): rejects an address outside
[0, MICROCODE_SIZE) and a value outside {0..5, 7..19}; otherwise stores
the value.  Returns the updated program and a success flag. -/
def setMicroCode (microCode : List ℕ) (address value : ℕ) : List ℕ × Bool :=
  if MICROCODE_SIZE ≤ address then (microCode, false)
  else if 19 < value ∨ value = 6 then (microCode, false)
  else (microCode.set address value, true)

/-- The recorder's state: the project data it mutates plus the
`isRecording` flag and the recording cursor (`recordMicroCodeAddress`). -/
structure RecorderState where
  microCode : List ℕ
  instructionNames : List (ℕ × String)
  isRecording : Bool
  recordAddr : Option ℕ
  deriving Repr, DecidableEq

/-- startRecording (record.js, beta): sets the cursor to the start
address, validates that it is a multiple of 10 within
[0, MICROCODE_SIZE-10] and that the trimmed name is 1-5 characters,
and associates the name with opcode startAddress/10; any failure
(including one inside setInstructionName) resets `isRecording` and the
cursor.  The caller (toggleRecording) has already set `isRecording`. -/
def startRecording (s : RecorderState) (startAddress : ℕ) (name : String) :
    RecorderState :=
  let failed : RecorderState := { s with isRecording := false, recordAddr := none }
  if MICROCODE_SIZE - 10 < startAddress then failed
  else if startAddress % 10 ≠ 0 then failed
  else
    let instructionName := jsTrim name
    if instructionName = "" then failed
    else if 5 < instructionName.length then failed
    else
      let opcode := startAddress / 10
      match setInstructionName s.instructionNames opcode instructionName with
      | (names, true) => { s with instructionNames := names, recordAddr := some startAddress }
      | (_, false) => failed

/-- recordMicroStep (record.js, beta): while recording with a cursor,
writes the id at the cursor through setMicroCode and advances the cursor
by 1; a setter failure (thrown in JS) leaves both untouched. -/
def recordMicroStep (s : RecorderState) (microStepId : ℕ) : RecorderState :=
  if s.isRecording = false then s
  else
    match s.recordAddr with
    | none => s
    | some addr =>
        match setMicroCode s.microCode addr microStepId with
        | (mc, true) => { s with microCode := mc, recordAddr := some (addr + 1) }
        | (_, false) => s

/-! ## Project store: snapshot import (johnny-project.js, preview channel) -/

/-- A JSON array element: a number, or any non-number value (which the
`typeof val === "number"` checks reject). -/
inductive JVal where
  | num (n : ℤ)
  | other
  deriving Repr, DecidableEq

/-- Whether a RAM element passes
`typeof val === "number" && val >= 0 && val <= MAX_RAM_VALUE`. -/
def validRamVal : JVal → Bool
  | JVal.num n => decide (0 ≤ n ∧ n ≤ (MAX_RAM_VALUE : ℤ))
  | JVal.other => false

/-- Whether a microcode element passes
`typeof val === "number" && val >= 0 && val <= 19 && val !== 6`. -/
def validMcVal : JVal → Bool
  | JVal.num n => decide (0 ≤ n ∧ n ≤ 19 ∧ n ≠ 6)
  | JVal.other => false

/-- The numeric value of an element (elements are only extracted after
validation, so they are numbers there). -/
def jvalNum : JVal → ℤ
  | JVal.num n => n
  | JVal.other => 0

/-- A parsed snapshot object: `none` for a field that is missing, falsy
or fails its `Array.isArray` / `typeof === "object"` check. -/
structure Snapshot where
  ram : Option (List JVal)
  microCode : Option (List JVal)
  instructionNames : Option (List (ℕ × String))
  deriving Repr, DecidableEq

/-- The project data mutated by `#fromJSON`. -/
structure ProjectState where
  ram : List ℤ
  microCode : List ℤ
  instructionNames : List (ℕ × String)
  deriving Repr, DecidableEq

/-- `while (padded.length < size) padded.push(0)`: zero-pad an array up
to the fixed size (a longer array is left as is, and then fails the
length check). -/
def padWithZeros (arr : List JVal) (size : ℕ) : List JVal :=
  arr ++ List.replicate (size - arr.length) (JVal.num 0)

/-- fromJSON (johnny-project.js `#fromJSON`): validates and assigns the
RAM field, then the microcode field, then the instruction names, in that
order; the first failing field throws, leaving the fields after it (but
not before it) unassigned.  Returns the resulting state and whether the
whole import succeeded. -/
def fromJSON (s : ProjectState) (json : Snapshot) : ProjectState × Bool :=
  match json.ram with
  | none => (s, false)
  | some ramArr =>
      let paddedRam := padWithZeros ramArr RAM_SIZE
      if paddedRam.length = RAM_SIZE ∧ paddedRam.all validRamVal then
        let s1 := { s with ram := paddedRam.map jvalNum }
        match json.microCode with
        | none => (s1, false)
        | some mcArr =>
            let paddedMicroCode := padWithZeros mcArr MICROCODE_SIZE
            if paddedMicroCode.length = MICROCODE_SIZE ∧ paddedMicroCode.all validMcVal then
              let s2 := { s1 with microCode := paddedMicroCode.map jvalNum }
              match json.instructionNames with
              | none => (s2, false)
              | some names => ({ s2 with instructionNames := names }, true)
            else (s1, false)
      else (s, false)

/-- import (johnny-project.js): runs `#fromJSON` and catches any error,
so the caller observes whatever prefix of the fields was already
assigned. -/
def importJSON (s : ProjectState) (json : Snapshot) : ProjectState :=
  (fromJSON s json).1

/-- Whether the RAM field of a snapshot passes its import validation. -/
def ramFieldOk (json : Snapshot) : Bool :=
  match json.ram with
  | none => false
  | some ramArr =>
      let paddedRam := padWithZeros ramArr RAM_SIZE
      decide (paddedRam.length = RAM_SIZE) && paddedRam.all validRamVal

/-- Whether the microcode field of a snapshot passes its import validation. -/
def mcFieldOk (json : Snapshot) : Bool :=
  match json.microCode with
  | none => false
  | some mcArr =>
      let paddedMicroCode := padWithZeros mcArr MICROCODE_SIZE
      decide (paddedMicroCode.length = MICROCODE_SIZE) && paddedMicroCode.all validMcVal

/-! ## Concrete states used by witnesses and counterexamples -/

/-- The machine after resetSimulator on a fresh project: all registers 0,
all RAM zero, the default microcode, no halt, no run. -/
def initMachineState : MachineState :=
  { addressBus := 0, dataBus := 0, accumulator := 0, programCounter := 0,
    instructionRegister := 0, microCodeCounter := 0, selectedRamAddress := 0,
    ram := List.replicate RAM_SIZE 0, microCode := defaultMicroCode,
    isHlt := false, isMacroRunning := false }

/-- A valid machine state on which the macro-step loop never exits: the
microcode entry at address 10 is 5 (a legal microcode value), and the
instruction register holds opcode 1, so the IR→MC step jumps back to
address 10 forever. -/
def loopMachineState : MachineState :=
  { initMachineState with
    microCodeCounter := 10,
    instructionRegister := 1000,
    microCode := defaultMicroCode.set 10 5 }

/-- A state with a nonzero microcode counter, for exercising manual steps. -/
def manualDemoState : MachineState :=
  { initMachineState with microCodeCounter := 5 }

/-- The recorder immediately after toggleRecording has set isRecording,
before startRecording runs, on a fresh project. -/
def recorderDemo : RecorderState :=
  { microCode := defaultMicroCode, instructionNames := defaultInstructionNames,
    isRecording := true, recordAddr := none }

/-- A project state with empty RAM and microcode and default names. -/
def demoProject : ProjectState :=
  { ram := List.replicate RAM_SIZE 0, microCode := List.replicate MICROCODE_SIZE 0,
    instructionNames := defaultInstructionNames }

/-- A snapshot whose RAM field is valid but whose microcode field holds
the rejected value 6. -/
def snapshotBadMc : Snapshot :=
  { ram := some [JVal.num 7], microCode := some [JVal.num 6],
    instructionNames := some [] }

/-- A snapshot whose RAM field is missing. -/
def snapshotBadRam : Snapshot :=
  { ram := none, microCode := some [], instructionNames := some [] }

/-- RAM holding the maximal word 19999 at address 0. -/
def ramWithMaxWord : List ℤ := 19999 :: List.replicate (RAM_SIZE - 1) 0

/-- RAM holding a single 1 at address 0. -/
def ramSingleOne : List ℤ := 1 :: List.replicate (RAM_SIZE - 1) 0

/-- RAM holding the word 1999 (opcode 1, operand 999) at address 0 and 1
at address 1, zeros elsewhere. -/
def ramForDelete : List ℤ := 1999 :: 1 :: List.replicate (RAM_SIZE - 2) 0

/-- A machine state whose microcode counter points at the IR→MC step
of the default FETCH block. -/
def fetchDemoState : MachineState := { initMachineState with microCodeCounter := 3 }

/-- A machine state whose microcode counter points at an inert 0 entry
of the default microcode. -/
def zeroIdDemoState : MachineState := { initMachineState with microCodeCounter := 4 }

/-! ## Theorems -/

/-- C2: whenever the machine is not halted, dispatches micro-operation 5
(IR→MC) and the opcode field of the instruction register is 0, it halts,
stops any continuous run and raises the FETCH fault; and concretely, on
the default microcode with all-zero memory and program counter 0, the
first macro step halts the machine with the FETCH fault. -/
theorem microStep_id5_opcode0_fetchFault :
    (∀ s : MachineState, s.isHlt = false →
      s.microCode.getD s.microCodeCounter 0 = 5 →
      getDataHigh s.instructionRegister = 0 →
      microStepF s = ({ s with isHlt := true, isMacroRunning := false }, some Fault.fetchFault)) ∧
    (singleMacroStepFuel 201 initMachineState).map (fun r => (r.1.isHlt, r.2)) =
      some (true, some Fault.fetchFault) := by
  constructor
  · intro s h1 h2 h3
    have h2' : s.microCode[s.microCodeCounter]?.getD 0 = 5 := by
      rw [← List.getD_eq_getElem?_getD]; exact h2
    simp [microStepF, h1, h2', h3]
  · rfl

/-- Witness for C2: the general fetch-fault theorem applied to the
concrete state sitting at microcode address 3 with a zero instruction
register. -/
theorem microStep_id5_opcode0_fetchFault_witness :
    microStepF fetchDemoState =
      ({ fetchDemoState with isHlt := true, isMacroRunning := false },
        some Fault.fetchFault) :=
  microStep_id5_opcode0_fetchFault.1 fetchDemoState rfl rfl rfl

/-- C3: an active microcode entry 0 during automatic stepping halts the
machine and stops any continuous run (raising the microcode-zero
configuration fault) instead of executing 0 as a no-op. -/
theorem microStep_activeZero_halts :
    ∀ s : MachineState, s.isHlt = false →
      s.microCode.getD s.microCodeCounter 0 = 0 →
      microStepF s = ({ s with isHlt := true, isMacroRunning := false }, some Fault.microcodeZero) := by
  intro s h1 h2
  have h2' : s.microCode[s.microCodeCounter]?.getD 0 = 0 := by
    rw [← List.getD_eq_getElem?_getD]; exact h2
  simp [microStepF, h1, h2']

/-- Witness for C3: the active-zero theorem applied to the concrete state
sitting at microcode address 4, where the default program holds a 0. -/
theorem microStep_activeZero_halts_witness :
    microStepF zeroIdDemoState =
      ({ zeroIdDemoState with isHlt := true, isMacroRunning := false },
        some Fault.microcodeZero) :=
  microStep_activeZero_halts zeroIdDemoState rfl rfl

/-- Counterexample to C7: a manual step with id 7 (MC := 0) does change
the microcode counter, here from 5 to 0. -/
theorem manualStep_counter_changes_cex :
    (manualMicroStep manualDemoState 7).microCodeCounter ≠ manualDemoState.microCodeCounter := by
  decide

/-- C7 as amended: a manual step never applies the automatic increment of
the microcode counter, so for every id other than 5 and 7 (whose own
effects write the counter) the counter is unchanged. -/
theorem manualStep_preserves_counter :
    ∀ (s : MachineState) (id : ℕ), id ≠ 5 → id ≠ 7 →
      (manualMicroStep s id).microCodeCounter = s.microCodeCounter := by
  intro s id h5 h7
  by_cases h : id < 20
  · interval_cases id
    all_goals
      first
      | exact absurd rfl h5
      | exact absurd rfl h7
      | (simp [manualMicroStep, executeMicroInstruction, MICRO_INSTRUCTIONS,
          dbToRamStep, ramToDbStep, dbToInsStep, insToAbStep, nullMcStep,
          pcToAbStep, incPcStep, incPcIfAccZeroStep, insToPcStep, nullAccStep,
          addAccStep, subAccStep, accToDbStep, incAccStep, decAccStep,
          dbToAccStep, stopStep, writeToRam, writeToDataBus,
          writeToInstructionRegister, writeToAddressBus, writeToProgramCounter,
          writeToAccumulator]
         <;> split <;> simp [incPcStep, writeToProgramCounter])
  · push_neg at h
    have hnone : MICRO_INSTRUCTIONS id = none := by
      unfold MICRO_INSTRUCTIONS
      split
      all_goals first | rfl | exact absurd h (by decide)
    simp [manualMicroStep, executeMicroInstruction, hnone]

/-- Witness for C7 (amended): a manual step with id 9 leaves the
microcode counter of the demo state at 5. -/
theorem manualStep_preserves_counter_witness :
    (manualMicroStep manualDemoState 9).microCodeCounter = manualDemoState.microCodeCounter :=
  manualStep_preserves_counter manualDemoState 9 (by decide) (by decide)

/-- C8: within [0, RAM_SIZE) and [0, MAX_RAM_VALUE] a write succeeds and
reads back the written value; a value out of range fails with
ValueOutOfRange, an address out of range fails with AddressOutOfRange,
and a failing write produces no new memory (the throw precedes the
store). -/
theorem setRam_writeRead :
    ∀ (ram : List ℤ) (address value : ℤ), ram.length = RAM_SIZE →
      ((0 ≤ address ∧ address < (RAM_SIZE : ℤ) ∧ 0 ≤ value ∧ value ≤ (MAX_RAM_VALUE : ℤ)) →
        setRam ram address value = Except.ok (ram.set address.toNat value) ∧
        getRam (ram.set address.toNat value) address = Except.ok value) ∧
      ((0 ≤ address ∧ address < (RAM_SIZE : ℤ)) → ¬(0 ≤ value ∧ value ≤ (MAX_RAM_VALUE : ℤ)) →
        setRam ram address value = Except.error RamError.valueOutOfRange) ∧
      (¬(0 ≤ address ∧ address < (RAM_SIZE : ℤ)) →
        setRam ram address value = Except.error RamError.addressOutOfRange) := by
  intro ram address value hlen
  have hsz : (RAM_SIZE : ℤ) = 1000 := by norm_num [RAM_SIZE]
  have hmax : (MAX_RAM_VALUE : ℤ) = 19999 := by norm_num [MAX_RAM_VALUE, MICROCODE_SIZE]
  refine ⟨?_, ?_, ?_⟩
  · rintro ⟨ha1, ha2, hv1, hv2⟩
    have haddr : ¬(address < 0 ∨ (RAM_SIZE : ℤ) ≤ address) := by omega
    have hval : ¬(value < 0 ∨ (MAX_RAM_VALUE : ℤ) < value) := by omega
    refine ⟨by rw [setRam, if_neg haddr, if_neg hval], ?_⟩
    rw [getRam, if_neg haddr]
    have hlt : address.toNat < ram.length := by
      rw [hlen]; omega
    rw [List.getD_eq_getElem?_getD, List.getElem?_set_eq_of_lt value hlt]
    rfl
  · rintro ⟨ha1, ha2⟩ hv
    have haddr : ¬(address < 0 ∨ (RAM_SIZE : ℤ) ≤ address) := by omega
    have hval : value < 0 ∨ (MAX_RAM_VALUE : ℤ) < value := by omega
    rw [setRam, if_neg haddr, if_pos hval]
  · intro ha
    have haddr : address < 0 ∨ (RAM_SIZE : ℤ) ≤ address := by omega
    rw [setRam, if_pos haddr]

/-- Witness for C8: writing 7 at address 5 of the all-zero RAM succeeds
and reads back 7. -/
theorem setRam_writeRead_witness :
    setRam (List.replicate RAM_SIZE 0) 5 7 =
      Except.ok ((List.replicate RAM_SIZE 0).set 5 7) ∧
    getRam ((List.replicate RAM_SIZE 0).set 5 7) 5 = Except.ok 7 :=
  (setRam_writeRead (List.replicate RAM_SIZE 0) 5 7 (by simp)).1
    (by norm_num [RAM_SIZE, MAX_RAM_VALUE, MICROCODE_SIZE])

/-- C9: starting a recording at microcode address 20 with name "LOOP"
associates "LOOP" with opcode 2 and sets the cursor to 20; recording ids
1 and then 2 writes them at addresses 20 and 21, advancing the cursor by
1 each time. -/
theorem recorder_loop_scenario :
    (startRecording recorderDemo 20 "LOOP").recordAddr = some 20 ∧
    (startRecording recorderDemo 20 "LOOP").instructionNames.lookup 2 = some "LOOP" ∧
    (recordMicroStep (startRecording recorderDemo 20 "LOOP") 1).microCode.getD 20 0 = 1 ∧
    (recordMicroStep (startRecording recorderDemo 20 "LOOP") 1).recordAddr = some 21 ∧
    (recordMicroStep (recordMicroStep (startRecording recorderDemo 20 "LOOP") 1) 2).microCode.getD 20 0 = 1 ∧
    (recordMicroStep (recordMicroStep (startRecording recorderDemo 20 "LOOP") 1) 2).microCode.getD 21 0 = 2 ∧
    (recordMicroStep (recordMicroStep (startRecording recorderDemo 20 "LOOP") 1) 2).recordAddr = some 22 ∧
    (recordMicroStep (recordMicroStep (startRecording recorderDemo 20 "LOOP") 1) 2).instructionNames.lookup 2 = some "LOOP" := by
  decide

set_option maxRecDepth 100000 in
/-- Counterexample to C1: a snapshot with a valid RAM field and an
invalid microcode field (the rejected value 6) makes the import fail,
yet the Memory has already been replaced: address 0 now holds 7 instead
of the previous 0.  The import is not atomic. -/
theorem import_not_atomic_cex :
    (fromJSON demoProject snapshotBadMc).2 = false ∧
    (importJSON demoProject snapshotBadMc).ram.getD 0 0 = 7 ∧
    demoProject.ram.getD 0 0 = 0 := by
  refine ⟨rfl, rfl, rfl⟩

/-- C1 as amended: import validates and applies the fields in order
Memory, MicrocodeProgram, InstructionNameTable, each one all-or-nothing;
a failing field leaves itself and every later field unchanged, but
fields validated earlier stay applied.  Full atomicity therefore holds
exactly when the Memory field is the invalid one. -/
theorem import_fieldwise :
    ∀ (s : ProjectState) (json : Snapshot),
      (ramFieldOk json = false → importJSON s json = s) ∧
      (mcFieldOk json = false →
        (importJSON s json).microCode = s.microCode ∧
        (importJSON s json).instructionNames = s.instructionNames) ∧
      (json.instructionNames = none →
        (importJSON s json).instructionNames = s.instructionNames) := by
  intro s json
  obtain ⟨r, m, ns⟩ := json
  cases r with
  | none => simp [importJSON, fromJSON, ramFieldOk, mcFieldOk]
  | some ramArr =>
    cases m with
    | none =>
      cases ns with
      | none =>
        simp only [importJSON, fromJSON, ramFieldOk, mcFieldOk]
        refine ⟨?_, ?_, ?_⟩ <;> intro h <;> split_ifs <;> simp_all
      | some names =>
        simp only [importJSON, fromJSON, ramFieldOk, mcFieldOk]
        refine ⟨?_, ?_, ?_⟩ <;> intro h <;> split_ifs <;> simp_all
    | some mcArr =>
      cases ns with
      | none =>
        simp only [importJSON, fromJSON, ramFieldOk, mcFieldOk]
        refine ⟨?_, ?_, ?_⟩ <;> intro h <;> split_ifs <;> simp_all
      | some names =>
        simp only [importJSON, fromJSON, ramFieldOk, mcFieldOk]
        refine ⟨?_, ?_, ?_⟩ <;> intro h <;> split_ifs <;> simp_all

/-- Witness for C1 (amended): importing a snapshot whose RAM field is
missing leaves the whole project state unchanged. -/
theorem import_fieldwise_witness :
    importJSON demoProject snapshotBadRam = demoProject :=
  (import_fieldwise demoProject snapshotBadRam).1 rfl

set_option maxRecDepth 100000 in
/-- Counterexample to C5: the word 19999 = MAX_RAM_VALUE (opcode 19,
operand 999) is within bounds, but the operand fix-up after an insert at
address 0 rewrites it to 20000, outside [0, MAX_RAM_VALUE]. -/
theorem fixup_overflow_cex :
    ramWithMaxWord.getD 0 0 = (MAX_RAM_VALUE : ℤ) ∧
    (fixOperandAfterRamShift ramWithMaxWord 0 1).getD 0 0 = 20000 ∧
    ¬((20000 : ℤ) ≤ (MAX_RAM_VALUE : ℤ)) := by
  refine ⟨rfl, rfl, by norm_num [MAX_RAM_VALUE, MICROCODE_SIZE]⟩

/-- C5 as amended: every register write clamps into its declared range,
and the operand fix-up keeps all Memory words within [0, MAX_RAM_VALUE]
for both deltas, except that a word equal to MAX_RAM_VALUE subject to
the +1 fix-up escapes the range (excluded by hypothesis, as the
counterexample forces). -/
theorem bounds_invariant_amended :
    (∀ (s : MachineState) (v : ℕ),
      (writeToAddressBus s v).addressBus ≤ RAM_SIZE - 1 ∧
      (writeToDataBus s v).dataBus ≤ MAX_RAM_VALUE ∧
      (writeToAccumulator s v).accumulator ≤ MAX_RAM_VALUE ∧
      (writeToProgramCounter s v).programCounter ≤ RAM_SIZE - 1 ∧
      (writeToInstructionRegister s v).instructionRegister ≤ MAX_RAM_VALUE ∧
      (writeToMicroCodeCounter s v).microCodeCounter ≤ MICROCODE_SIZE - 1) ∧
    (∀ (ram : List ℤ) (startAddress : ℕ) (delta : ℤ),
      delta = 1 ∨ delta = -1 →
      (∀ x ∈ ram, 0 ≤ x ∧ x ≤ (MAX_RAM_VALUE : ℤ)) →
      (delta = 1 → ∀ x ∈ ram,
        wordHigh x ≠ 0 → wordHigh x ≠ 10 → (startAddress : ℤ) ≤ wordLow x →
        x ≠ (MAX_RAM_VALUE : ℤ)) →
      ∀ y ∈ fixOperandAfterRamShift ram startAddress delta,
        0 ≤ y ∧ y ≤ (MAX_RAM_VALUE : ℤ)) := by
  have hmax : (MAX_RAM_VALUE : ℤ) = 19999 := by norm_num [MAX_RAM_VALUE, MICROCODE_SIZE]
  constructor
  · intro s v
    refine ⟨?_, ?_, ?_, ?_, ?_, ?_⟩ <;>
      simp [writeToAddressBus, writeToDataBus, writeToAccumulator,
        writeToProgramCounter, writeToInstructionRegister,
        writeToMicroCodeCounter, clampNat]
  · intro ram startAddress delta hdelta hin hsafe y hy
    simp only [fixOperandAfterRamShift, List.mem_map] at hy
    obtain ⟨x, hx, hxy⟩ := hy
    have hxb := hin x hx
    simp only [wordHigh, wordLow] at hxy
    split_ifs at hxy with h01 hsa
    · subst hxy; exact hxb
    · subst hxy
      rcases hdelta with h1 | h1
      · have hne := hsafe h1 x hx
        simp only [wordHigh, wordLow] at hne
        have hne' : x ≠ (MAX_RAM_VALUE : ℤ) := by
          apply hne
          · intro hc; exact h01 (Or.inl hc)
          · intro hc; exact h01 (Or.inr hc)
          · exact hsa
        subst h1
        constructor <;> omega
      · subst h1
        have hx0 : x / 1000 ≠ 0 := fun hc => h01 (Or.inl hc)
        constructor <;> omega
    · subst hxy; exact hxb

/-- Witness for C5 (amended): the fix-up of the singleton RAM [1234]
after an insert at address 0 yields 1235, still within bounds. -/
theorem bounds_invariant_amended_witness :
    (0 : ℤ) ≤ 1235 ∧ (1235 : ℤ) ≤ (MAX_RAM_VALUE : ℤ) :=
  bounds_invariant_amended.2 [1234] 0 1 (Or.inl rfl) (by decide) (by decide) 1235
    (by decide)

/-! ### List and last-used-address helper lemmas -/

/-- Reading inside a pointwise map over the index range gives the
function value. -/
theorem getD_range_map (n i : ℕ) (f : ℕ → ℤ) (h : i < n) :
    ((List.range n).map f).getD i 0 = f i := by
  rw [List.getD_eq_getElem?_getD, List.getElem?_map, List.getElem?_range h]
  rfl

/-- Reading the just-set index. -/
theorem getD_set_self (l : List ℤ) (i : ℕ) (a : ℤ) (h : i < l.length) :
    (l.set i a).getD i 0 = a := by
  rw [List.getD_eq_getElem?_getD, List.getElem?_set_eq_of_lt a h]
  rfl

/-- Reading an index other than the one just set. -/
theorem getD_set_other (l : List ℤ) (i j : ℕ) (a : ℤ) (h : i ≠ j) :
    (l.set i a).getD j 0 = l.getD j 0 := by
  rw [List.getD_eq_getElem?_getD, List.getElem?_set_ne h, ← List.getD_eq_getElem?_getD]

/-- The last-used scan stays in [-1, n). -/
theorem lastUsedFrom_range (ram : List ℤ) (n : ℕ) :
    -1 ≤ lastUsedFrom ram n ∧ lastUsedFrom ram n < (n : ℤ) := by
  induction n with
  | zero => simp [lastUsedFrom]
  | succ n ih =>
    rw [lastUsedFrom]
    split
    · omega
    · constructor <;> omega

/-- Every address above the last-used scan's result (within the scanned
range) holds zero. -/
theorem lastUsedFrom_zero_above (ram : List ℤ) (n : ℕ) :
    ∀ j : ℕ, lastUsedFrom ram n < (j : ℤ) → j < n → ram.getD j 0 = 0 := by
  induction n with
  | zero => intro j _ hj; omega
  | succ n ih =>
    intro j hgt hj
    rw [lastUsedFrom] at hgt
    by_cases hn : ram.getD n 0 = 0
    · rw [if_pos hn] at hgt
      rcases Nat.lt_succ_iff_lt_or_eq.mp hj with h | h
      · exact ih j hgt h
      · exact h ▸ hn
    · rw [if_neg hn] at hgt
      omega

/-- When the scan finds a nonzero word, the word at its result is
nonzero. -/
theorem lastUsedFrom_nonzero (ram : List ℤ) (n : ℕ)
    (h : 0 ≤ lastUsedFrom ram n) :
    ram.getD (lastUsedFrom ram n).toNat 0 ≠ 0 := by
  induction n with
  | zero => simp [lastUsedFrom] at h
  | succ n ih =>
    rw [lastUsedFrom] at h ⊢
    by_cases hn : ram.getD n 0 = 0
    · rw [if_pos hn] at h ⊢
      exact ih h
    · rw [if_neg hn]
      simpa using hn

/-- The scan result is determined: a nonzero word at m with only zeros
strictly above it (within the range) pins the result to m. -/
theorem lastUsedFrom_eq (ram : List ℤ) (n m : ℕ) (hm : m < n)
    (hnz : ram.getD m 0 ≠ 0)
    (hz : ∀ j : ℕ, m < j → j < n → ram.getD j 0 = 0) :
    lastUsedFrom ram n = (m : ℤ) := by
  induction n with
  | zero => omega
  | succ n ih =>
    rw [lastUsedFrom]
    by_cases hn : ram.getD n 0 = 0
    · rw [if_pos hn]
      have hmn : m ≠ n := fun hc => hnz (hc ▸ hn)
      exact ih (by omega) (fun j h1 h2 => hz j h1 (by omega))
    · rw [if_neg hn]
      have : m = n := by
        by_contra hne
        exact hn (hz n (by omega) (by omega))
      simp [this]

/-- The insert shift is length-preserving. -/
theorem insertShift_length (ram : List ℤ) (sel l : ℕ) :
    (insertShift ram sel l).length = ram.length := by
  simp [insertShift]

/-- Pointwise description of the insert shift. -/
theorem insertShift_getD (ram : List ℤ) (sel l i : ℕ) (h : i < ram.length) :
    (insertShift ram sel l).getD i 0 =
      if sel + 1 ≤ i ∧ i ≤ l + 1 then ram.getD (i - 1) 0 else ram.getD i 0 :=
  getD_range_map ram.length i _ h

/-- The delete shift is length-preserving. -/
theorem deleteShift_length (ram : List ℤ) (sel l : ℕ) :
    (deleteShift ram sel l).length = ram.length := by
  simp [deleteShift]

/-- Pointwise description of the delete shift. -/
theorem deleteShift_getD (ram : List ℤ) (sel l i : ℕ) (h : i < ram.length) :
    (deleteShift ram sel l).getD i 0 =
      if sel ≤ i ∧ i < l then ram.getD (i + 1) 0 else ram.getD i 0 :=
  getD_range_map ram.length i _ h

/-- The delete shift with an empty window is the identity. -/
theorem deleteShift_id (ram : List ℤ) (sel l : ℕ) (h : l ≤ sel) :
    deleteShift ram sel l = ram := by
  apply List.ext_getElem (by simp [deleteShift])
  intro i h1 h2
  have h1' : i < ram.length := by simpa [deleteShift] using h1
  have := deleteShift_getD ram sel l i h1'
  rw [if_neg (by omega)] at this
  rw [← List.getD_eq_getElem _ 0 h1, ← List.getD_eq_getElem _ 0 h2, this]

/-- C10 as amended: with the operand fix-up disabled, deleting at a
selected address strictly above the last used address shifts nothing and
only clears the word at the last used address. -/
theorem deleteRow_beyond_last :
    ∀ (ram : List ℤ) (selected : ℕ),
      0 ≤ getLastUsedRamAddress ram →
      getLastUsedRamAddress ram < (selected : ℤ) →
      deleteRamRow ram selected false =
        ram.set (getLastUsedRamAddress ram).toNat 0 := by
  intro ram selected h0 hsel
  rw [deleteRamRow]
  rw [if_neg (by omega)]
  have hid : deleteShift ram selected (getLastUsedRamAddress ram).toNat =
      ram := deleteShift_id ram selected _ (by omega)
  simp only [hid, Bool.false_eq_true, if_false]

/-- C6 as amended: insertRowAbove then deleteRow at the same selected
address with fix-up disabled restores Memory exactly, provided the
memory is empty (both are no-ops) or the selected address is at most the
last used address and the last used address is below MEMORY_SIZE-1 (so
the insert neither skips the used region nor fails MemoryFull). -/
theorem insertDelete_inverse :
    ∀ (ram : List ℤ) (selected : ℕ),
      (getLastUsedRamAddress ram = -1 ∨
        ((selected : ℤ) ≤ getLastUsedRamAddress ram ∧
          getLastUsedRamAddress ram < (ram.length : ℤ) - 1)) →
      deleteRamRow (insertRamRowAbove ram selected false) selected false = ram := by
  intro ram selected h
  rcases h with hempty | ⟨hsel, hlt⟩
  · rw [insertRamRowAbove, if_pos hempty, deleteRamRow, if_pos hempty]
  · have h0 : (0 : ℤ) ≤ getLastUsedRamAddress ram := by omega
    have hLl : getLastUsedRamAddress ram = ((getLastUsedRamAddress ram).toNat : ℤ) := by
      omega
    set l := (getLastUsedRamAddress ram).toNat with hl
    have hsel' : selected ≤ l := by omega
    have hllen : l + 1 < ram.length := by omega
    have hgl : lastUsedFrom ram ram.length = getLastUsedRamAddress ram := rfl
    have hnz : ram.getD l 0 ≠ 0 := lastUsedFrom_nonzero ram ram.length h0
    have hz : ∀ j : ℕ, l < j → j < ram.length → ram.getD j 0 = 0 := by
      intro j h1 h2
      apply lastUsedFrom_zero_above ram ram.length j ?_ h2
      rw [hgl]
      omega
    rw [insertRamRowAbove, if_neg (by omega), if_neg (by omega)]
    simp only [Bool.false_eq_true, if_false]
    set ram1 := (insertShift ram selected l).set selected 0 with hram1
    have len1 : ram1.length = ram.length := by
      rw [hram1, List.length_set, insertShift_length]
    have char1 : ∀ i : ℕ, i < ram.length →
        ram1.getD i 0 =
          if i = selected then 0
          else if selected + 1 ≤ i ∧ i ≤ l + 1 then ram.getD (i - 1) 0
          else ram.getD i 0 := by
      intro i hi
      by_cases hisel : i = selected
      · subst hisel
        rw [hram1, getD_set_self _ _ _ (by rw [insertShift_length]; omega), if_pos rfl]
      · rw [hram1, getD_set_other _ _ _ _ (fun hc => hisel hc.symm),
          insertShift_getD ram selected l i hi, if_neg hisel]
    have last1 : getLastUsedRamAddress ram1 = ((l + 1 : ℕ) : ℤ) := by
      apply lastUsedFrom_eq ram1 ram1.length (l + 1) (by omega)
      · rw [char1 (l + 1) (by omega), if_neg (by omega), if_pos (by omega)]
        simpa using hnz
      · intro j h1 h2
        rw [char1 j (by omega), if_neg (by omega), if_neg (by omega)]
        exact hz j (by omega) (by omega)
    rw [deleteRamRow, if_neg (by rw [last1]; omega)]
    simp only [Bool.false_eq_true, if_false, last1, Int.toNat_natCast]
    apply List.ext_getElem
    · rw [List.length_set, deleteShift_length, len1]
    · intro i h1 h2
      rw [← List.getD_eq_getElem _ 0 h1, ← List.getD_eq_getElem _ 0 h2]
      have hi : i < ram.length := h2
      by_cases hil : i = l + 1
      · subst hil
        rw [getD_set_self _ _ _ (by rw [deleteShift_length, len1]; omega)]
        exact (hz (l + 1) (by omega) (by omega)).symm
      · rw [getD_set_other _ _ _ _ (fun hc => hil hc.symm),
          deleteShift_getD ram1 selected (l + 1) i (by omega)]
        by_cases hwin : selected ≤ i ∧ i < l + 1
        · rw [if_pos hwin, char1 (i + 1) (by omega), if_neg (by omega),
            if_pos (by omega)]
          simp
        · have hnsel : ¬i = selected := by omega
          have hnwin2 : ¬(selected + 1 ≤ i ∧ i ≤ l + 1) := by omega
          rw [if_neg hwin, char1 i hi, if_neg hnsel, if_neg hnwin2]


/-- The insert shift with an empty window is the identity. -/
theorem insertShift_id (ram : List ℤ) (sel l : ℕ) (h : l < sel) :
    insertShift ram sel l = ram := by
  apply List.ext_getElem (by simp [insertShift])
  intro i h1 h2
  have h1' : i < ram.length := by simpa [insertShift] using h1
  have := insertShift_getD ram sel l i h1'
  rw [if_neg (by omega)] at this
  rw [← List.getD_eq_getElem _ 0 h1, ← List.getD_eq_getElem _ 0 h2, this]

/-- Reading inside a map at an in-range index applies the function. -/
theorem getD_map (l : List ℤ) (f : ℤ → ℤ) (i : ℕ) (h : i < l.length) :
    (l.map f).getD i 0 = f (l.getD i 0) := by
  rw [List.getD_eq_getElem _ 0 (by simpa using h), List.getElem_map,
    ← List.getD_eq_getElem _ 0 h]

/-- The demo RAM [1, 0, ...] has the machine's RAM length. -/
theorem ramSingleOne_length : ramSingleOne.length = RAM_SIZE := by
  rw [show ramSingleOne = 1 :: List.replicate (RAM_SIZE - 1) 0 from rfl,
    List.length_cons, List.length_replicate]
  norm_num [RAM_SIZE]

/-- Every address of the demo RAM [1, 0, ...] above 0 holds zero. -/
theorem ramSingleOne_getD_pos : ∀ j : ℕ, 1 ≤ j → ramSingleOne.getD j 0 = 0 := by
  intro j hj
  obtain ⟨k, rfl⟩ : ∃ k, j = k + 1 := ⟨j - 1, by omega⟩
  rw [show ramSingleOne = 1 :: List.replicate (RAM_SIZE - 1) 0 from rfl,
    List.getD_cons_succ, List.getD_eq_getElem?_getD, List.getElem?_replicate]
  split_ifs <;> rfl

/-- The last used address of the demo RAM [1, 0, ...] is 0. -/
theorem lastUsed_ramSingleOne : getLastUsedRamAddress ramSingleOne = 0 := by
  have := lastUsedFrom_eq ramSingleOne ramSingleOne.length 0
    (by rw [ramSingleOne_length]; norm_num [RAM_SIZE])
    (by rw [show ramSingleOne = 1 :: List.replicate (RAM_SIZE - 1) 0 from rfl,
          List.getD_cons_zero]
        norm_num)
    (fun j h1 h2 => ramSingleOne_getD_pos j h1)
  simpa using this

/-- The demo RAM [1999, 1, 0, ...] has the machine's RAM length. -/
theorem ramForDelete_length : ramForDelete.length = RAM_SIZE := by
  rw [show ramForDelete = 1999 :: 1 :: List.replicate (RAM_SIZE - 2) 0 from rfl,
    List.length_cons, List.length_cons, List.length_replicate]
  norm_num [RAM_SIZE]

/-- Every address of the demo RAM [1999, 1, 0, ...] above 1 holds zero. -/
theorem ramForDelete_getD_ge2 : ∀ j : ℕ, 2 ≤ j → ramForDelete.getD j 0 = 0 := by
  intro j hj
  obtain ⟨k, rfl⟩ : ∃ k, j = k + 2 := ⟨j - 2, by omega⟩
  rw [show ramForDelete = 1999 :: 1 :: List.replicate (RAM_SIZE - 2) 0 from rfl,
    List.getD_cons_succ, List.getD_cons_succ, List.getD_eq_getElem?_getD,
    List.getElem?_replicate]
  split_ifs <;> rfl

/-- The last used address of the demo RAM [1999, 1, 0, ...] is 1. -/
theorem lastUsed_ramForDelete : getLastUsedRamAddress ramForDelete = 1 := by
  have := lastUsedFrom_eq ramForDelete ramForDelete.length 1
    (by rw [ramForDelete_length]; norm_num [RAM_SIZE])
    (by rw [show ramForDelete = 1999 :: 1 :: List.replicate (RAM_SIZE - 2) 0 from rfl,
          List.getD_cons_succ, List.getD_cons_zero]
        norm_num)
    (fun j h1 h2 => ramForDelete_getD_ge2 j h1)
  simpa using this

/-- Counterexample to C10: RAM [1999, 1, 0, ...] with the operand fix-up
enabled (its default) and selected address 900 > lastUsedAddress 1:
deleteRow clears address 1 as claimed, but the fix-up then rewrites the
word at address 0 from 1999 to 1998, so not every other address is left
unchanged. -/
theorem deleteRow_beyond_last_cex :
    getLastUsedRamAddress ramForDelete = 1 ∧
    (deleteRamRow ramForDelete 900 true).getD 1 0 = 0 ∧
    ramForDelete.getD 0 0 = 1999 ∧
    (deleteRamRow ramForDelete 900 true).getD 0 0 = 1998 := by
  have hshift : deleteShift ramForDelete 900 1 = ramForDelete :=
    deleteShift_id _ _ _ (by norm_num)
  have hdel : deleteRamRow ramForDelete 900 true =
      fixOperandAfterRamShift (ramForDelete.set 1 0) 900 (-1) := by
    simp only [deleteRamRow, lastUsed_ramForDelete]
    rw [if_neg (by norm_num)]
    simp [Int.toNat_one, hshift]
  have hlen : (ramForDelete.set 1 0).length = RAM_SIZE := by
    rw [List.length_set, ramForDelete_length]
  refine ⟨lastUsed_ramForDelete, ?_, rfl, ?_⟩
  · rw [hdel]
    simp only [fixOperandAfterRamShift]
    rw [getD_map _ _ 1 (by rw [hlen]; norm_num [RAM_SIZE])]
    rw [getD_set_self _ _ _ (by rw [ramForDelete_length]; norm_num [RAM_SIZE])]
    decide
  · rw [hdel]
    simp only [fixOperandAfterRamShift]
    rw [getD_map _ _ 0 (by rw [hlen]; norm_num [RAM_SIZE])]
    rw [getD_set_other _ _ _ _ (by norm_num)]
    rw [show ramForDelete.getD 0 0 = 1999 from rfl]
    decide

/-- Witness for C10 (amended): deleting at address 5 of RAM [1, 0, ...]
with fix-up disabled just clears address 0. -/
theorem deleteRow_beyond_last_witness :
    deleteRamRow ramSingleOne 5 false =
      ramSingleOne.set (getLastUsedRamAddress ramSingleOne).toNat 0 :=
  deleteRow_beyond_last ramSingleOne 5 (by norm_num [lastUsed_ramSingleOne])
    (by norm_num [lastUsed_ramSingleOne])

/-- The last used address is unchanged after clearing address 1 of the
demo RAM [1, 0, ...] (that address already held 0). -/
theorem lastUsed_ramSingleOne_set :
    getLastUsedRamAddress (ramSingleOne.set 1 0) = 0 := by
  have hlen : (ramSingleOne.set 1 0).length = RAM_SIZE := by
    rw [List.length_set, ramSingleOne_length]
  have := lastUsedFrom_eq (ramSingleOne.set 1 0) (ramSingleOne.set 1 0).length 0
    (by rw [hlen]; norm_num [RAM_SIZE])
    (by rw [getD_set_other _ _ _ _ (by norm_num),
          show ramSingleOne = 1 :: List.replicate (RAM_SIZE - 1) 0 from rfl,
          List.getD_cons_zero]
        norm_num)
    ?_
  · simpa using this
  · intro j h1 h2
    by_cases hj : j = 1
    · subst hj
      exact getD_set_self _ _ _ (by rw [ramSingleOne_length]; norm_num [RAM_SIZE])
    · rw [getD_set_other _ _ _ _ (fun hc => hj hc.symm)]
      exact ramSingleOne_getD_pos j (by omega)

/-- Counterexample to C6: RAM [1, 0, ...] with selected address 1
(above the last used address 0): insertRowAbove leaves the memory
unchanged apart from re-clearing address 1, but deleteRow then clears
address 0, so the pair does not restore the original Memory even with
fix-up disabled. -/
theorem insertDelete_not_inverse_cex :
    (deleteRamRow (insertRamRowAbove ramSingleOne 1 false) 1 false).getD 0 0 = 0 ∧
    ramSingleOne.getD 0 0 = 1 := by
  have hins : insertRamRowAbove ramSingleOne 1 false = ramSingleOne.set 1 0 := by
    simp only [insertRamRowAbove, lastUsed_ramSingleOne]
    rw [if_neg (by norm_num), if_neg (by rw [ramSingleOne_length]; norm_num [RAM_SIZE])]
    simp only [Int.toNat_zero, insertShift_id ramSingleOne 1 0 (by norm_num),
      Bool.false_eq_true, if_false]
  have hlen1 : (ramSingleOne.set 1 0).length = RAM_SIZE := by
    rw [List.length_set, ramSingleOne_length]
  have hdel : deleteRamRow (ramSingleOne.set 1 0) 1 false =
      (ramSingleOne.set 1 0).set 0 0 := by
    simp only [deleteRamRow, lastUsed_ramSingleOne_set]
    rw [if_neg (by norm_num)]
    simp only [Int.toNat_zero, deleteShift_id (ramSingleOne.set 1 0) 1 0 (by norm_num),
      Bool.false_eq_true, if_false]
  rw [hins, hdel]
  refine ⟨?_, rfl⟩
  exact getD_set_self _ _ _ (by rw [hlen1]; norm_num [RAM_SIZE])

/-- Witness for C6 (amended): on RAM [1, 0, ...] with selected address 0
the insert-then-delete pair restores the memory. -/
theorem insertDelete_inverse_witness :
    deleteRamRow (insertRamRowAbove ramSingleOne 0 false) 0 false = ramSingleOne :=
  insertDelete_inverse ramSingleOne 0
    (Or.inr ⟨by norm_num [lastUsed_ramSingleOne],
      by norm_num [lastUsed_ramSingleOne, ramSingleOne_length, RAM_SIZE]⟩)

/-! ### Facts about the default microcode program -/

set_option maxRecDepth 100000 in
/-- The default program has the full microcode length. -/
theorem dmc_length : defaultMicroCode.length = MICROCODE_SIZE := by decide

set_option maxRecDepth 100000 in
/-- Every entry of the default program is a valid id below 20. -/
theorem dmc_le19 : ∀ m : ℕ, m < 200 → defaultMicroCode.getD m 0 ≤ 19 := by decide

set_option maxRecDepth 100000 in
/-- The default program never contains the reserved id 6. -/
theorem dmc_ne6 : ∀ m : ℕ, m < 200 → defaultMicroCode.getD m 0 ≠ 6 := by decide

set_option maxRecDepth 100000 in
/-- The only IR→MC entry (id 5) of the default program sits at address 3. -/
theorem dmc_five : ∀ m : ℕ, m < 200 → defaultMicroCode.getD m 0 = 5 → m = 3 := by
  decide

set_option maxRecDepth 100000 in
/-- The last address of the default program holds 0. -/
theorem dmc_199 : defaultMicroCode.getD 199 0 = 0 := by decide

/-- Reads beyond the default program yield the inert 0. -/
theorem dmc_default (m : ℕ) (h : 200 ≤ m) : defaultMicroCode.getD m 0 = 0 := by
  rw [List.getD_eq_getElem?_getD, List.getElem?_eq_none]
  · rfl
  · rw [dmc_length]
    exact h

/-! ### Branch descriptions of the automatic micro step -/

/-- A halted machine ignores automatic micro steps. -/
theorem microStepF_halted (s : MachineState) (h : s.isHlt = true) :
    microStepF s = (s, none) := by
  rw [microStepF, if_pos (by simp [h])]

/-- The IR→MC step with a zero opcode halts with the FETCH fault. -/
theorem microStepF_fetch_branch (s : MachineState) (h1 : s.isHlt = false)
    (h2 : s.microCode.getD s.microCodeCounter 0 = 5)
    (h3 : getDataHigh s.instructionRegister = 0) :
    microStepF s = ({ s with isHlt := true, isMacroRunning := false },
      some Fault.fetchFault) := by
  rw [microStepF, if_neg (by simp [h1])]
  show (if s.microCode.getD s.microCodeCounter 0 = 5 ∧
      getDataHigh s.instructionRegister = 0 then _ else _) = _
  rw [if_pos ⟨h2, h3⟩]

/-- An active microcode 0 halts with the microcode-zero fault. -/
theorem microStepF_zero_branch (s : MachineState) (h1 : s.isHlt = false)
    (h2 : s.microCode.getD s.microCodeCounter 0 = 0) :
    microStepF s = ({ s with isHlt := true, isMacroRunning := false },
      some Fault.microcodeZero) := by
  rw [microStepF, if_neg (by simp [h1])]
  show (if s.microCode.getD s.microCodeCounter 0 = 5 ∧
      getDataHigh s.instructionRegister = 0 then _ else _) = _
  rw [if_neg (by rw [h2]; rintro ⟨h, -⟩; exact absurd h (by norm_num)),
    if_pos h2]

/-- Outside the two fault checks, the automatic step dispatches. -/
theorem microStepF_dispatch (s : MachineState) (h1 : s.isHlt = false)
    (hA : ¬(s.microCode.getD s.microCodeCounter 0 = 5 ∧
      getDataHigh s.instructionRegister = 0))
    (hB : s.microCode.getD s.microCodeCounter 0 ≠ 0) :
    microStepF s =
      executeMicroInstruction s (s.microCode.getD s.microCodeCounter 0) false := by
  rw [microStepF, if_neg (by simp [h1])]
  show (if s.microCode.getD s.microCodeCounter 0 = 5 ∧
      getDataHigh s.instructionRegister = 0 then _ else _) = _
  rw [if_neg hA, if_neg hB]

/-- One automatic micro step under the default program preserves the
program and either halts, resets the microcode counter to 0, or strictly
increases it while keeping it below 200. -/
theorem dmc_step (s : MachineState) (h1 : s.isHlt = false)
    (h2 : s.microCode = defaultMicroCode) :
    (microStepF s).1.microCode = defaultMicroCode ∧
    ((microStepF s).1.isHlt = true ∨ (microStepF s).1.microCodeCounter = 0 ∨
      (s.microCodeCounter < (microStepF s).1.microCodeCounter ∧
        (microStepF s).1.microCodeCounter ≤ 199)) := by
  by_cases hbig : 200 ≤ s.microCodeCounter
  · rw [microStepF_zero_branch s h1 (by rw [h2]; exact dmc_default _ hbig)]
    exact ⟨h2, Or.inl rfl⟩
  · push_neg at hbig
    have hle : defaultMicroCode.getD s.microCodeCounter 0 ≤ 19 :=
      dmc_le19 _ hbig
    have hne6 : defaultMicroCode.getD s.microCodeCounter 0 ≠ 6 :=
      dmc_ne6 _ hbig
    have hmc3 : defaultMicroCode.getD s.microCodeCounter 0 = 5 →
        s.microCodeCounter = 3 := dmc_five _ hbig
    have h199 : defaultMicroCode.getD s.microCodeCounter 0 ≠ 0 →
        s.microCodeCounter ≠ 199 := by
      intro hz hc
      rw [hc] at hz
      exact hz dmc_199
    by_cases h5c : defaultMicroCode.getD s.microCodeCounter 0 = 5 ∧
        getDataHigh s.instructionRegister = 0
    · rw [microStepF_fetch_branch s h1 (by rw [h2]; exact h5c.1) h5c.2]
      exact ⟨h2, Or.inl rfl⟩
    · by_cases h0c : defaultMicroCode.getD s.microCodeCounter 0 = 0
      · rw [microStepF_zero_branch s h1 (by rw [h2]; exact h0c)]
        exact ⟨h2, Or.inl rfl⟩
      · rw [microStepF_dispatch s h1 (by rw [h2]; exact h5c) (by rw [h2]; exact h0c),
          h2]
        revert hle hne6 hmc3 h199 h5c h0c
        generalize defaultMicroCode.getD s.microCodeCounter 0 = idv
        intro hle hne6 hmc3 h199 h5c h0c
        interval_cases idv
        all_goals
          simp only [executeMicroInstruction, MICRO_INSTRUCTIONS,
            dbToRamStep, ramToDbStep, dbToInsStep, insToAbStep, insToMcStep,
            nullMcStep, pcToAbStep, incPcStep, incPcIfAccZeroStep, insToPcStep,
            nullAccStep, addAccStep, subAccStep, accToDbStep, incAccStep,
            decAccStep, dbToAccStep, stopStep, writeToRam, writeToDataBus,
            writeToInstructionRegister, writeToAddressBus, writeToProgramCounter,
            writeToAccumulator, writeToMicroCodeCounter, clampNat,
            MICROCODE_SIZE, Bool.and_true, Bool.and_false, Bool.not_false,
            Bool.and_self, eq_self_iff_true, if_true, Bool.false_eq_true, if_false]
        all_goals
          first
          | exact absurd rfl h0c
          | exact absurd rfl hne6
          | exact ⟨h2, Or.inl rfl⟩
          | exact ⟨h2, Or.inl trivial⟩
          | (refine ⟨h2, Or.inr (Or.inl ?_)⟩
             omega)
          | (have hm199 : s.microCodeCounter ≠ 199 := h199 (by omega)
             refine ⟨h2, Or.inr (Or.inr ?_)⟩
             omega)
          | (have hm199 : s.microCodeCounter ≠ 199 := h199 (by omega)
             refine ⟨?_, Or.inr (Or.inr ?_)⟩
             · split <;> exact h2
             · split <;> first
                 | omega
                 | (simp only []; omega))

/-- The macro-step loop under the default program exits within the fuel
bound 200 - MicroCodeCounter + 1: every non-exiting iteration strictly
increases the counter. -/
theorem macro_term_aux : ∀ (k : ℕ) (s : MachineState),
    s.microCode = defaultMicroCode → 200 ≤ s.microCodeCounter + k →
    (singleMacroStepFuel (k + 1) s).isSome = true := by
  intro k
  induction k with
  | zero =>
    intro s h2 hk
    by_cases h1 : s.isHlt = true
    · rw [singleMacroStepFuel, microStepF_halted s h1]
      simp [h1]
    · have h1' : s.isHlt = false := by simpa using h1
      rw [singleMacroStepFuel,
        microStepF_zero_branch s h1' (by rw [h2]; exact dmc_default _ (by omega))]
      simp
  | succ n ih =>
    intro s h2 hk
    by_cases h1 : s.isHlt = true
    · rw [singleMacroStepFuel, microStepF_halted s h1]
      simp [h1]
    · have h1' : s.isHlt = false := by simpa using h1
      obtain ⟨hmc', hdisj⟩ := dmc_step s h1' h2
      rw [singleMacroStepFuel]
      by_cases hexit : (microStepF s).1.microCodeCounter ≠ 0 ∧
          (microStepF s).1.isHlt = false
      · rw [if_pos hexit]
        apply ih _ hmc'
        rcases hdisj with ha | hb | hc
        · rw [ha] at hexit
          exact absurd hexit.2 (by simp)
        · exact absurd hb hexit.1
        · omega
      · rw [if_neg hexit]
        simp

set_option maxRecDepth 1000000 in
/-- Counterexample to C4: from a valid machine state whose microcode has
the legal value 5 at address 10 and whose instruction register holds
opcode 1, the micro step jumps back to address 10 without halting, so
the macro-step loop never reaches MicroCodeCounter = 0 nor Halted. -/
theorem macroStep_nontermination_cex :
    ¬(∀ s : MachineState, ∃ n : ℕ, (singleMacroStepFuel n s).isSome = true) := by
  have hfix : microStepF loopMachineState = (loopMachineState, none) := by decide
  have hnone : ∀ n : ℕ, singleMacroStepFuel n loopMachineState = none := by
    intro n
    induction n with
    | zero => rfl
    | succ n ih =>
      rw [singleMacroStepFuel, hfix, if_pos (by decide)]
      exact ih
  intro h
  obtain ⟨n, hn⟩ := h loopMachineState
  rw [hnone n] at hn
  simp at hn

/-- C4 as amended: with the default MicrocodeProgram the macro-step loop
terminates from every machine state (any registers, memory and flags,
counter in range): 201 fuel always suffices; for general valid microcode
programs the loop can spin forever. -/
theorem macroStep_terminates_default :
    ∀ s : MachineState, s.microCode = defaultMicroCode →
      s.microCodeCounter < MICROCODE_SIZE →
      (singleMacroStepFuel 201 s).isSome = true := by
  intro s h2 hmc
  exact macro_term_aux 200 s h2 (by omega)

/-- Witness for C4 (amended): one macro step from the freshly reset
machine exits within the fuel bound. -/
theorem macroStep_terminates_default_witness :
    (singleMacroStepFuel 201 initMachineState).isSome = true :=
  macroStep_terminates_default initMachineState rfl (by decide)
